import Mathlib

/-!
Shallow embedding of `fluvii/producer.py` (classes `Producer` and
`TransactionalProducer`), together with proofs of the spec's claims about it.

Modelling conventions:
  * Python `dict`s are association lists (`PyDict`) with insertion-order
    semantics: setting an existing key overwrites in place, setting a new key
    appends at the end, exactly as a CPython dict behaves.
  * Python `None` values inside header dicts are `Option.none`; a header dict
    therefore has entry type `Option String`.
  * Raising an exception is returning `.error` in `Except PyErr`.
  * Machine integers are modelled as `Nat`/`Int` with explicit `% 2 ^ 32`
    where the 32-bit hash overflows.
  * External collaborators (admin client metadata, metrics manager) are
    parameters of the functions that consult them.
-/

namespace Fluvii

/-- Exceptions that the embedded code can raise.  `typeError` is the
`TypeError` raised by `mmh3.hash(None)`; `keyError` is a Python dict/lookup
miss; `topicAmbiguity` is the `Exception('Topic must be defined if managing
more than 1 topic')` in `_format_produce`; `zeroDivisionError` is Python's
`%`-by-zero; `producerTimeoutFailure` is `ProducerTimeoutFailure` from
`fluvii.custom_exceptions` (not present under `src/`, but only its identity
matters); `metricsFailure` stands for an arbitrary exception raised by the
external metrics collaborator. -/
inductive PyErr where
  | typeError
  | keyError (k : String)
  | topicAmbiguity
  | zeroDivisionError
  | producerTimeoutFailure
  | metricsFailure
  deriving DecidableEq, Repr

/-- A Python `dict` with `String` keys, as an insertion-ordered association
list whose keys are unique (uniqueness is maintained by the operations, never
assumed by them). -/
abbrev PyDict (α : Type) : Type := List (String × α)

/-- Python `d[k]` / `d.get(k)`: the value at the first entry with key `k`. -/
def dictGet {α : Type} : PyDict α → String → Option α
  | [], _ => none
  | (k', v) :: rest, k => if k' = k then some v else dictGet rest k

/-- Python `k in d`. -/
def dictHasKey {α : Type} (d : PyDict α) (k : String) : Bool :=
  (dictGet d k).isSome

/-- Python `d[k] = v`: overwrite in place if the key exists, else append. -/
def dictSet {α : Type} (d : PyDict α) (k : String) (v : α) : PyDict α :=
  if dictHasKey d k then
    d.map (fun p => if p.1 = k then (k, v) else p)
  else
    d ++ [(k, v)]

/-- Python `d.update(e)`: set every entry of `e` into `d`, in order. -/
def dictUpdate {α : Type} (d e : PyDict α) : PyDict α :=
  e.foldl (fun acc p => dictSet acc p.1 p.2) d

/-- Python truthiness of an optional string (`None` and `''` are falsy). -/
def pyTruthyStr (o : Option String) : Bool :=
  match o with
  | none => false
  | some s => !(s == "")

/-- Python truthiness of an optional integer (`None` and `0` are falsy). -/
def pyTruthyInt (o : Option Int) : Bool :=
  match o with
  | none => false
  | some n => !(n == 0)

/-- Python truthiness of an optional dict (`None` and `{}` are falsy). -/
def pyTruthyDict {α : Type} (o : Option (PyDict α)) : Bool :=
  match o with
  | none => false
  | some d => !d.isEmpty

/-! ### MurmurHash3 (x86, 32-bit), as computed by `mmh3.hash(key)`

`mmh3` is a third-party library; `mmh3.hash(key)` hashes the UTF-8 bytes of
`key` with MurmurHash3 x86 32-bit, seed `0`, and returns the result as a
*signed* 32-bit integer.  The transcription below works on `Nat` with
explicit reduction modulo `2 ^ 32`. -/

/-- `2 ^ 32`, the modulus of 32-bit arithmetic. -/
def mod32 : Nat := 4294967296

/-- Rotate a 32-bit value (given as a `Nat < 2 ^ 32`) left by `r` bits. -/
def rotl32 (x r : Nat) : Nat :=
  ((x <<< r) % mod32) ||| (x >>> (32 - r))

/-- UTF-8 encoding of one character, as a list of byte values. -/
def utf8Bytes (c : Char) : List Nat :=
  let n := c.toNat
  if n < 128 then [n]
  else if n < 2048 then
    [192 ||| (n >>> 6), 128 ||| (n &&& 63)]
  else if n < 65536 then
    [224 ||| (n >>> 12), 128 ||| ((n >>> 6) &&& 63), 128 ||| (n &&& 63)]
  else
    [240 ||| (n >>> 18), 128 ||| ((n >>> 12) &&& 63),
     128 ||| ((n >>> 6) &&& 63), 128 ||| (n &&& 63)]

/-- UTF-8 bytes of a string. -/
def strBytes (s : String) : List Nat :=
  (s.toList.map utf8Bytes).flatten

/-- MurmurHash3 mixing of one 32-bit block. -/
def mmixK (k : Nat) : Nat :=
  let k := (k * 3432918353) % mod32
  let k := rotl32 k 15
  (k * 461845907) % mod32

/-- MurmurHash3 tail step: mix the final 1–3 bytes into the state. -/
def mmTail (tail : List Nat) (h : Nat) : Nat :=
  match tail with
  | [] => h
  | [b0] => h ^^^ mmixK b0
  | [b0, b1] => h ^^^ mmixK (b0 ||| (b1 <<< 8))
  | b0 :: b1 :: b2 :: _ => h ^^^ mmixK (b0 ||| (b1 <<< 8) ||| (b2 <<< 16))

/-- MurmurHash3 body: consume 4-byte little-endian blocks, then the tail. -/
def mmBody : List Nat → Nat → Nat
  | b0 :: b1 :: b2 :: b3 :: rest, h =>
    let k := b0 ||| (b1 <<< 8) ||| (b2 <<< 16) ||| (b3 <<< 24)
    let h := h ^^^ mmixK k
    let h := rotl32 h 13
    mmBody rest ((h * 5 + 3864292196) % mod32)
  | tail, h => mmTail tail h

/-- MurmurHash3 finalization mix. -/
def fmix32 (h : Nat) : Nat :=
  let h := h ^^^ (h >>> 16)
  let h := (h * 2246822507) % mod32
  let h := h ^^^ (h >>> 13)
  let h := (h * 3266489909) % mod32
  h ^^^ (h >>> 16)

/-- MurmurHash3 x86 32-bit of a byte list, unsigned result. -/
def murmur3x86_32 (bytes : List Nat) (seed : Nat) : Nat :=
  let h := mmBody bytes seed
  let h := h ^^^ (bytes.length % mod32)
  fmix32 h

/-- `mmh3.hash(s)`: MurmurHash3 of the UTF-8 bytes of `s`, seed 0, returned
as a signed 32-bit integer. -/
def mmh3Hash (s : String) : Int :=
  let h := murmur3x86_32 (strBytes s) 0
  if h < 2147483648 then (h : Int) else (h : Int) - 4294967296

/-! ### Partition metadata and `_partitioner` -/

/-- `Producer._get_topic_metadata` followed by the cache read in
`_partitioner`: on a cache hit return the cached count; on a miss consult the
admin client (`fetch`), store the result, and return it.  A broker that does
not know the topic (`fetch topic = none`) raises the `KeyError` that
`self._admin_client.list_topics().topics[topic]` would raise. -/
def getPartitionCount (fetch : String → Option Nat)
    (cache : PyDict Nat) (topic : String) :
    Except PyErr (Nat × PyDict Nat) :=
  match dictGet cache topic with
  | some p => .ok (p, cache)
  | none =>
    match fetch topic with
    | some n => .ok (n, dictSet cache topic n)
    | none => .error (.keyError topic)

/-- `mmh3.hash(key)` applied to an optional key: `mmh3.hash(None)` raises
`TypeError` (the C extension only accepts `str`/`bytes`). -/
def mmh3HashOpt (key : Option String) : Except PyErr Int :=
  match key with
  | none => .error .typeError
  | some s => .ok (mmh3Hash s)

/-- `Producer._partitioner(key, topic)`: resolve the partition count (cache
or metadata fetch), then return `mmh3.hash(key) % p_count` with Python `%`
semantics (`Int.emod`, and a `ZeroDivisionError` when the count is zero).
Returns the partition together with the (possibly updated) metadata cache. -/
def partitioner (fetch : String → Option Nat) (cache : PyDict Nat)
    (key : Option String) (topic : String) :
    Except PyErr (Int × PyDict Nat) :=
  match getPartitionCount fetch cache topic with
  | .error e => .error e
  | .ok (pCount, cache') =>
    match mmh3HashOpt key with
    | .error e => .error e
    | .ok h =>
      if pCount = 0 then .error .zeroDivisionError
      else .ok (Int.emod h (pCount : Int), cache')

/-! ### Header enrichment (`_format_produce`, lines 105–114) -/

/-- An upstream message passed as `message_passthrough`: its `key()` and its
raw `headers()` list (Kafka headers are an ordered list of name/value pairs in
which names may repeat and values may be null). -/
structure PyMessage where
  key : Option String
  rawHeaders : List (String × Option String)
  deriving DecidableEq, Repr

/-- Modelled from the spec: `parse_headers` lives in `fluvii.general_utils`,
which is not under `src/`.  Per the spec it decodes an upstream message's raw
header list into the semantic header mapping ("seed the header set by copying
its headers (decoded to the semantic header format)"): a dict built from the
raw (name, value) pairs in order, later occurrences of a name overriding
earlier ones as in any Python dict construction. -/
def parse_headers (raw : List (String × Option String)) : PyDict (Option String) :=
  dictUpdate [] raw

/-- The header/key block of `Producer._format_produce` (lines 105–114):
seed from the passthrough message (adopting its key when the caller's key is
falsy), overlay the explicit headers, drop null-valued entries, and synthesize
a `guid` entry when none is present.  `guid` is the value
`self._generate_guid()` (a fresh `uuid.uuid1()` string) would produce for this
call.  Returns the final header dict together with the (possibly replaced)
outgoing key. -/
def buildHeaders (guid : String) (key : Option String)
    (headers : Option (PyDict (Option String))) (mp : Option PyMessage) :
    PyDict (Option String) × Option String :=
  let seeded : PyDict (Option String) × Option String :=
    match mp with
    | none => ([], key)
    | some m =>
      (parse_headers m.rawHeaders, if pyTruthyStr key then key else m.key)
  let headersOut := seeded.1
  let key := seeded.2
  let headersOut :=
    dictUpdate headersOut (if pyTruthyDict headers then headers.getD [] else [])
  let headersOut := headersOut.filter (fun p => p.2.isSome)
  let headersOut :=
    if dictHasKey headersOut "guid" then headersOut
    else dictSet headersOut "guid" (some guid)
  (headersOut, key)

/-! ### Topic resolution (`_format_produce`, lines 116–121) -/

/-- Does the pattern occur as a prefix of the list? -/
def startsWithList (p s : List Char) : Bool :=
  match p, s with
  | [], _ => true
  | _ :: _, [] => false
  | a :: as, b :: bs => a = b && startsWithList as bs

/-- Does the pattern occur as a contiguous sublist?  (Python's `in` on
strings.) -/
def hasSubList (p s : List Char) : Bool :=
  if startsWithList p s then true
  else
    match s with
    | [] => false
    | _ :: rest => hasSubList p rest

/-- Python `'__changelog' in topic`, the internal-topic test used by
`_format_produce`. -/
def containsChangelog (t : String) : Bool :=
  hasSubList "__changelog".toList t.toList

/-- Spec-side predicate for comparison with `containsChangelog`: the topic
*ends with* the internal-use suffix `__changelog`. -/
def endsWithChangelog (t : String) : Bool :=
  startsWithList "__changelog".toList.reverse t.toList.reverse

/-- Topic resolution when the caller's topic is falsy (lines 116–121 of
`_format_produce`): keep the registered topics whose names do not contain
`__changelog`; if exactly one remains return it, otherwise raise
`Exception('Topic must be defined if managing more than 1 topic')`.
`topicSchemas` is the ordered key list of `self.topic_schemas`. -/
def resolveTopicNone (topicSchemas : List String) : Except PyErr String :=
  let topics := topicSchemas.filter (fun t => !containsChangelog t)
  match topics with
  | [t] => .ok t
  | _ => .error .topicAmbiguity

/-! ### `_format_produce` and `produce` -/

/-- The produce envelope returned by `_format_produce` (the
`dict(topic=..., key=..., value=..., headers=..., partition=...)` of line
128). -/
structure Envelope (V : Type) where
  topic : String
  key : Option String
  value : V
  headers : PyDict (Option String)
  partition : Int
  deriving DecidableEq, Repr

/-- `Producer._format_produce(value, key, topic, headers, partition,
message_passthrough)`.  Parameters standing for producer state and external
collaborators: `topicSchemas` is the ordered key list of
`self.topic_schemas`, `fetch` the admin client's partition-count lookup,
`cache` is `self._topic_partition_metadata`, and `guid` the uuid the call
would generate.  Steps, in source order: build headers and key (lines
105–114); resolve a falsy topic (116–121); resolve a falsy partition through
`_partitioner` (122–123); look up the topic's serializer, a dict access that
raises `KeyError` for an unregistered topic (124); return the envelope (128).
Returns the envelope with the possibly-updated metadata cache. -/
def formatProduce {V : Type} (topicSchemas : List String)
    (fetch : String → Option Nat) (cache : PyDict Nat) (guid : String)
    (value : V) (key : Option String) (topic : Option String)
    (headers : Option (PyDict (Option String))) (partition : Option Int)
    (messagePassthrough : Option PyMessage) :
    Except PyErr (Envelope V × PyDict Nat) :=
  let bh := buildHeaders guid key headers messagePassthrough
  let headersOut := bh.1
  let key := bh.2
  match (if pyTruthyStr topic then .ok (topic.getD "")
         else resolveTopicNone topicSchemas : Except PyErr String) with
  | .error e => .error e
  | .ok topic =>
    match (if pyTruthyInt partition then .ok (partition.getD 0, cache)
           else partitioner fetch cache key topic :
           Except PyErr (Int × PyDict Nat)) with
    | .error e => .error e
    | .ok (partition, cache) =>
      if topicSchemas.contains topic then
        .ok ({ topic := topic, key := key, value := value,
               headers := headersOut, partition := partition }, cache)
      else .error (.keyError topic)

/-- `Producer.produce` (lines 130–136): format the envelope, poll(0) (a
no-op here), enqueue it on the external client (modelled as succeeding), then
— with no exception handler — call
`self.metrics_manager.inc_messages_produced(1, topic)` when a metrics manager
is configured.  `metricsInc` is that collaborator call; an exception it
raises propagates out of `produce`. -/
def produce {V : Type} (metricsInc : Option (String → Except PyErr Unit))
    (topicSchemas : List String) (fetch : String → Option Nat)
    (cache : PyDict Nat) (guid : String) (value : V) (key : Option String)
    (topic : Option String) (headers : Option (PyDict (Option String)))
    (partition : Option Int) (messagePassthrough : Option PyMessage) :
    Except PyErr (Envelope V × PyDict Nat) :=
  match formatProduce topicSchemas fetch cache guid value key topic headers
      partition messagePassthrough with
  | .error e => .error e
  | .ok (env, cache) =>
    match metricsInc with
    | none => .ok (env, cache)
    | some inc =>
      match inc env.topic with
      | .ok _ => .ok (env, cache)
      | .error e => .error e

/-! ### `_confirm_produce` -/

/-- Outcome of `_confirm_produce`, remembering how many `flush` calls were
made: `ok` when the loop exits with an empty queue, `timeoutFailure` for the
`raise ProducerTimeoutFailure`. -/
inductive ConfirmResult where
  | ok (flushes : Nat)
  | timeoutFailure (flushes : Nat)
  deriving DecidableEq, Repr

/-- The `while` loop of `Producer._confirm_produce`.  `qlen n` is the value
`self._producer.__len__()` observed after `n` flushes have been performed —
the queue is external state, so it enters the model as that observation
sequence.  The source counts `attempt` upward from 1 and loops while
`attempt <= attempts`; here `remaining = attempts - (attempt - 1)` counts the
same budget downward (the guard `attempt <= attempts` is `remaining > 0`),
and `flushed` counts the flush calls made so far. -/
def confirmLoop (qlen : Nat → Nat) (flushed remaining : Nat) : ConfirmResult :=
  if 0 < qlen flushed then
    match remaining with
    | r + 1 => confirmLoop qlen (flushed + 1) r
    | 0 => .timeoutFailure flushed
  else .ok flushed

/-- `Producer._confirm_produce(attempts)`: run the loop with the full attempt
budget, starting before any flush. -/
def confirmProduce (qlen : Nat → Nat) (attempts : Nat) : ConfirmResult :=
  confirmLoop qlen 0 attempts

/-! ### `TransactionalProducer` -/

/-- The transactional producer's state, instrumented with call counters on
the external client so that "how many times was `begin_transaction` invoked"
is expressible: `activeTransaction` is `self.active_transaction`, and the
counters record the calls made to the underlying
`self._producer.begin_transaction` / `commit_transaction` /
`abort_transaction` and to `super().produce`. -/
structure TxProducer where
  activeTransaction : Bool
  beginCalls : Nat
  commitCalls : Nat
  abortCalls : Nat
  producedMessages : Nat
  deriving DecidableEq, Repr

/-- State after `__init__`: `self.active_transaction = False`, no client
calls made yet. -/
def initTxProducer : TxProducer :=
  { activeTransaction := false, beginCalls := 0, commitCalls := 0,
    abortCalls := 0, producedMessages := 0 }

/-- `TransactionalProducer.begin_transaction`: invoke the client's begin,
then set `active_transaction = True`. -/
def beginTransaction (s : TxProducer) : TxProducer :=
  { s with beginCalls := s.beginCalls + 1, activeTransaction := true }

/-- `TransactionalProducer.produce`: when no transaction is active, call
`self.begin_transaction()` first, then delegate to `super().produce`. -/
def txProduce (s : TxProducer) : TxProducer :=
  let s := if s.activeTransaction then s else beginTransaction s
  { s with producedMessages := s.producedMessages + 1 }

/-- `TransactionalProducer.abort_transaction`: client abort, then
`active_transaction = False`. -/
def abortTransaction (s : TxProducer) : TxProducer :=
  { s with abortCalls := s.abortCalls + 1, activeTransaction := false }

/-- `TransactionalProducer.commit_transaction`: client commit, poll(0), then
`active_transaction = False`. -/
def commitTransaction (s : TxProducer) : TxProducer :=
  { s with commitCalls := s.commitCalls + 1, activeTransaction := false }

/-! ## Lemmas about the dict model -/

theorem dictGet_mem {α : Type} :
    ∀ {d : PyDict α} {k : String} {v : α}, dictGet d k = some v → (k, v) ∈ d := by
  intro d
  induction d with
  | nil => intro k v h; simp [dictGet] at h
  | cons p rest ih =>
    intro k v h
    obtain ⟨k', v'⟩ := p
    simp only [dictGet] at h
    by_cases hk : k' = k
    · rw [if_pos hk] at h
      cases hk
      cases Option.some.inj h
      exact List.mem_cons_self _ _
    · rw [if_neg hk] at h
      exact List.mem_cons_of_mem _ (ih h)

theorem dictGet_append_left {α : Type} {d : PyDict α} {k : String} {v : α}
    (e : PyDict α) (h : dictGet d k = some v) : dictGet (d ++ e) k = some v := by
  induction d with
  | nil => simp [dictGet] at h
  | cons p rest ih =>
    obtain ⟨k', v'⟩ := p
    simp only [dictGet, List.cons_append] at h ⊢
    by_cases hk : k' = k
    · rwa [if_pos hk] at h ⊢
    · rw [if_neg hk] at h ⊢
      exact ih h

theorem dictGet_append_right {α : Type} {d : PyDict α} {k : String}
    (e : PyDict α) (h : dictGet d k = none) : dictGet (d ++ e) k = dictGet e k := by
  induction d with
  | nil => simp
  | cons p rest ih =>
    obtain ⟨k', v'⟩ := p
    simp only [dictGet, List.cons_append] at h ⊢
    by_cases hk : k' = k
    · rw [if_pos hk] at h; exact absurd h (by simp)
    · rw [if_neg hk] at h ⊢
      exact ih h

theorem dictGet_map_set_self {α : Type} {d : PyDict α} {k : String} {w : α} (v : α)
    (h : dictGet d k = some w) :
    dictGet (d.map (fun p => if p.1 = k then (k, v) else p)) k = some v := by
  induction d with
  | nil => simp [dictGet] at h
  | cons p rest ih =>
    obtain ⟨k', v'⟩ := p
    simp only [dictGet] at h
    rw [List.map_cons]
    dsimp only
    by_cases hk : k' = k
    · rw [if_pos hk]
      simp [dictGet]
    · rw [if_neg hk]
      rw [if_neg hk] at h
      simp only [dictGet, if_neg hk]
      exact ih h

theorem dictGet_map_set_ne {α : Type} {k' k : String} (h : k' ≠ k) (v : α)
    (d : PyDict α) :
    dictGet (d.map (fun p => if p.1 = k' then (k', v) else p)) k = dictGet d k := by
  induction d with
  | nil => rfl
  | cons p rest ih =>
    obtain ⟨a, b⟩ := p
    rw [List.map_cons]
    dsimp only
    by_cases ha : a = k'
    · rw [if_pos ha]
      have hak : a ≠ k := fun hc => h (ha ▸ hc)
      simp only [dictGet, if_neg h, if_neg hak, ih]
    · rw [if_neg ha]
      by_cases hak : a = k
      · simp only [dictGet, if_pos hak]
      · simp only [dictGet, if_neg hak, ih]

theorem dictGet_dictSet_same {α : Type} (d : PyDict α) (k : String) (v : α) :
    dictGet (dictSet d k v) k = some v := by
  unfold dictSet
  by_cases h : dictHasKey d k
  · rw [if_pos h]
    unfold dictHasKey at h
    obtain ⟨w, hw⟩ := Option.isSome_iff_exists.mp h
    exact dictGet_map_set_self v hw
  · rw [if_neg h]
    unfold dictHasKey at h
    have hnone : dictGet d k = none := by
      cases hg : dictGet d k with
      | none => rfl
      | some w => rw [hg] at h; simp at h
    rw [dictGet_append_right _ hnone]
    simp [dictGet]

theorem dictGet_dictSet_ne {α : Type} (d : PyDict α) {k' k : String} (v : α)
    (h : k' ≠ k) : dictGet (dictSet d k' v) k = dictGet d k := by
  unfold dictSet
  by_cases hh : dictHasKey d k'
  · rw [if_pos hh]
    exact dictGet_map_set_ne h v d
  · rw [if_neg hh]
    cases hg : dictGet d k with
    | none =>
      rw [dictGet_append_right _ hg]
      simp [dictGet, h]
    | some w => exact dictGet_append_left _ hg

theorem mem_dictSet {α : Type} {d : PyDict α} {k : String} {v : α}
    {x : String × α} (h : x ∈ dictSet d k v) : x ∈ d ∨ x = (k, v) := by
  unfold dictSet at h
  by_cases hh : dictHasKey d k
  · rw [if_pos hh] at h
    obtain ⟨q, hq, hx⟩ := List.mem_map.mp h
    by_cases hqk : q.1 = k
    · right; rw [← hx]; simp [hqk]
    · left; rw [← hx]; simp only [if_neg hqk]; exact hq
  · rw [if_neg hh] at h
    rcases List.mem_append.mp h with h1 | h2
    · left; exact h1
    · right; simpa using h2

theorem dictGet_dictUpdate_not_mem {α : Type} :
    ∀ (e : PyDict α) (k : String), (∀ p ∈ e, p.1 ≠ k) →
      ∀ d, dictGet (dictUpdate d e) k = dictGet d k := by
  intro e
  induction e with
  | nil => intro k _ d; rfl
  | cons p rest ih =>
    intro k h d
    obtain ⟨a, b⟩ := p
    have ha : a ≠ k := h (a, b) (List.mem_cons_self _ _)
    have hrest : ∀ p ∈ rest, p.1 ≠ k := fun p hp => h p (List.mem_cons_of_mem _ hp)
    show dictGet (dictUpdate (dictSet d a b) rest) k = dictGet d k
    rw [ih k hrest, dictGet_dictSet_ne _ _ ha]

theorem dictGet_dictUpdate_mem {α : Type} :
    ∀ (e : PyDict α) (k : String) (v : α), (e.map Prod.fst).Nodup →
      dictGet e k = some v → ∀ d, dictGet (dictUpdate d e) k = some v := by
  intro e
  induction e with
  | nil => intro k v _ h; simp [dictGet] at h
  | cons p rest ih =>
    intro k v hnd h d
    obtain ⟨a, b⟩ := p
    simp only [List.map_cons, List.nodup_cons] at hnd
    obtain ⟨hna, hndr⟩ := hnd
    simp only [dictGet] at h
    by_cases ha : a = k
    · rw [if_pos ha] at h
      have hb : b = v := Option.some.inj h
      have hrest : ∀ p ∈ rest, p.1 ≠ k := by
        intro p hp hpk
        exact hna (List.mem_map.mpr ⟨p, hp, hpk.trans ha.symm⟩)
      show dictGet (dictUpdate (dictSet d a b) rest) k = some v
      rw [dictGet_dictUpdate_not_mem rest k hrest, ha, dictGet_dictSet_same, hb]
    · rw [if_neg ha] at h
      exact ih k v hndr h (dictSet d a b)

theorem dictGet_filter {α : Type} (p : String × α → Bool) :
    ∀ (d : PyDict α) (k : String) (v : α), dictGet d k = some v →
      p (k, v) = true → dictGet (d.filter p) k = some v := by
  intro d
  induction d with
  | nil => intro k v h; simp [dictGet] at h
  | cons q rest ih =>
    intro k v h hp
    obtain ⟨a, b⟩ := q
    simp only [dictGet] at h
    by_cases ha : a = k
    · rw [if_pos ha] at h
      cases ha
      cases Option.some.inj h
      rw [List.filter_cons, if_pos hp]
      simp [dictGet]
    · rw [if_neg ha] at h
      rw [List.filter_cons]
      by_cases hb : p (a, b)
      · rw [if_pos hb]
        simp only [dictGet, if_neg ha]
        exact ih k v h hp
      · rw [if_neg hb]
        exact ih k v h hp

/-! ## Lemmas about the header pipeline -/

/-- The final two steps of the header block (null-filter, then guid
synthesis) yield a dict with no null values that always has a `guid` key. -/
theorem finalizedHeaders_ok (g : String) (d : PyDict (Option String)) :
    (∀ p ∈ (if dictHasKey (d.filter (fun p => p.2.isSome)) "guid"
            then d.filter (fun p => p.2.isSome)
            else dictSet (d.filter (fun p => p.2.isSome)) "guid" (some g)),
        p.2 ≠ none) ∧
    dictGet (if dictHasKey (d.filter (fun p => p.2.isSome)) "guid"
             then d.filter (fun p => p.2.isSome)
             else dictSet (d.filter (fun p => p.2.isSome)) "guid" (some g))
        "guid" ≠ none := by
  have hfs : ∀ p ∈ d.filter (fun p => p.2.isSome), p.2 ≠ none := by
    intro p hp
    have := (List.mem_filter.mp hp).2
    simpa [Option.isSome_iff_ne_none] using this
  by_cases hg : dictHasKey (d.filter (fun p => p.2.isSome)) "guid"
  · rw [if_pos hg]
    refine ⟨hfs, ?_⟩
    unfold dictHasKey at hg
    simpa [Option.isSome_iff_ne_none] using hg
  · rw [if_neg hg]
    constructor
    · intro p hp
      rcases mem_dictSet hp with h1 | h2
      · exact hfs p h1
      · rw [h2]; simp
    · rw [dictGet_dictSet_same]; simp

/-- A non-null entry of the merged header dict survives the null-filter and
the guid-synthesis step unchanged. -/
theorem dictGet_finalized_of_get (g : String) (d : PyDict (Option String))
    {k : String} {v : String} (h : dictGet d k = some (some v)) :
    dictGet (if dictHasKey (d.filter (fun p => p.2.isSome)) "guid"
             then d.filter (fun p => p.2.isSome)
             else dictSet (d.filter (fun p => p.2.isSome)) "guid" (some g)) k
      = some (some v) := by
  have hf : dictGet (d.filter (fun p => p.2.isSome)) k = some (some v) :=
    dictGet_filter _ d k (some v) h (by simp)
  by_cases hg : dictHasKey (d.filter (fun p => p.2.isSome)) "guid"
  · rw [if_pos hg]; exact hf
  · rw [if_neg hg]
    by_cases hk : k = "guid"
    · exfalso
      unfold dictHasKey at hg
      rw [hk] at hf
      rw [hf] at hg
      simp at hg
    · rw [dictGet_dictSet_ne _ _ (fun hc => hk hc.symm)]
      exact hf

/-- The truthiness guard on the explicit-headers argument is redundant for
`dictUpdate`: updating with the empty dict is a no-op. -/
theorem dictUpdate_headersArg {α : Type} (d : PyDict α)
    (headers : Option (PyDict α)) :
    dictUpdate d (if pyTruthyDict headers then headers.getD [] else []) =
      dictUpdate d (headers.getD []) := by
  cases headers with
  | none => rfl
  | some e =>
    cases e with
    | nil => rfl
    | cons a l => rfl

/-! ## Claim C1 -/

/-- Claim C1: for the transactional producer starting with no open
transaction, `produce` implicitly opens a transaction, invoking the
underlying `begin_transaction` exactly once across consecutive produces with
no intervening commit/abort; `commit` and `abort` always return the state to
"no open transaction"; and a produce immediately after a commit opens a new
transaction (a second underlying begin) rather than reusing the committed
one. -/
theorem txProducer_state_machine (s : TxProducer)
    (h : s.activeTransaction = false) :
    (txProduce s).beginCalls = s.beginCalls + 1 ∧
    (txProduce s).activeTransaction = true ∧
    (txProduce (txProduce s)).beginCalls = s.beginCalls + 1 ∧
    (∀ t : TxProducer, (commitTransaction t).activeTransaction = false ∧
        (abortTransaction t).activeTransaction = false) ∧
    (txProduce (commitTransaction (txProduce s))).beginCalls = s.beginCalls + 2 := by
  refine ⟨?_, ?_, ?_, ?_, ?_⟩ <;>
    simp [txProduce, beginTransaction, commitTransaction, abortTransaction, h]

/-- Witness for C1, at the freshly initialized transactional producer. -/
theorem txProducer_state_machine_witness :
    initTxProducer.activeTransaction = false ∧
    (txProduce initTxProducer).beginCalls = 1 ∧
    (txProduce (txProduce initTxProducer)).beginCalls = 1 ∧
    (txProduce (commitTransaction (txProduce initTxProducer))).beginCalls = 2 :=
  ⟨rfl, (txProducer_state_machine initTxProducer rfl).1,
    (txProducer_state_machine initTxProducer rfl).2.2.1,
    (txProducer_state_machine initTxProducer rfl).2.2.2.2⟩

/-! ## Claim C2 -/

/-- Claim C2: for every key and topic whose cached partition count is a
stable positive `p`, `_partitioner` is deterministic — repeated calls return
the same value (even if the metadata collaborator changes between calls, the
cache entry is what is consulted) — and the returned partition index lies in
`[0, p)`. -/
theorem partitioner_deterministic_in_range
    (fetch fetch' : String → Option Nat) (cache : PyDict Nat)
    (k t : String) (p : Nat)
    (hc : dictGet cache t = some p) (hp : 0 < p) :
    partitioner fetch cache (some k) t = partitioner fetch' cache (some k) t ∧
    partitioner fetch cache (some k) t =
      .ok (Int.emod (mmh3Hash k) (p : Int), cache) ∧
    0 ≤ Int.emod (mmh3Hash k) (p : Int) ∧
    Int.emod (mmh3Hash k) (p : Int) < (p : Int) := by
  have h0 : p ≠ 0 := Nat.pos_iff_ne_zero.mp hp
  have hpz : ((p : Int)) ≠ 0 := by exact_mod_cast h0
  refine ⟨?_, ?_, ?_, ?_⟩
  · simp [partitioner, getPartitionCount, hc]
  · simp [partitioner, getPartitionCount, mmh3HashOpt, hc, h0]
  · exact Int.emod_nonneg _ hpz
  · exact Int.emod_lt_of_pos _ (by exact_mod_cast hp)

/-- Witness for C2, with key `"abc"` and a cached count of 3. -/
theorem partitioner_deterministic_in_range_witness :
    dictGet [("orders", 3)] "orders" = some 3 ∧
    partitioner (fun _ => none) [("orders", 3)] (some "abc") "orders" =
      .ok (Int.emod (mmh3Hash "abc") 3, [("orders", 3)]) ∧
    0 ≤ Int.emod (mmh3Hash "abc") 3 ∧ Int.emod (mmh3Hash "abc") 3 < 3 :=
  ⟨rfl,
    (partitioner_deterministic_in_range (fun _ => none) (fun _ => some 7)
      [("orders", 3)] "abc" "orders" 3 rfl (by decide)).2.1,
    (partitioner_deterministic_in_range (fun _ => none) (fun _ => some 7)
      [("orders", 3)] "abc" "orders" 3 rfl (by decide)).2.2.1,
    (partitioner_deterministic_in_range (fun _ => none) (fun _ => some 7)
      [("orders", 3)] "abc" "orders" 3 rfl (by decide)).2.2.2⟩

/-! ## Claim C4 -/

/-- When the queue never drains, the confirmation loop times out after
spending its whole remaining budget, having flushed once per budget unit. -/
theorem confirmLoop_stuck (qlen : Nat → Nat) (hq : ∀ n, 0 < qlen n) :
    ∀ r f, confirmLoop qlen f r = .timeoutFailure (f + r) := by
  intro r
  induction r with
  | zero =>
    intro f
    show (if 0 < qlen f then ConfirmResult.timeoutFailure f
          else ConfirmResult.ok f) = ConfirmResult.timeoutFailure (f + 0)
    rw [if_pos (hq f)]
    rfl
  | succ r ih =>
    intro f
    show (if 0 < qlen f then confirmLoop qlen (f + 1) r
          else ConfirmResult.ok f) = ConfirmResult.timeoutFailure (f + (r + 1))
    rw [if_pos (hq f), ih (f + 1)]
    congr 1
    omega

/-- Claim C4: for a queue that never drains (its observed length stays
positive no matter how many flushes happen), `_confirm_produce` performs
exactly `attempts` flush invocations and then raises the delivery-timeout
failure; for a queue that is already empty when the loop is entered, it
succeeds without flushing. -/
theorem confirmProduce_bounded (qlen : Nat → Nat) (attempts : Nat) :
    ((∀ n, 0 < qlen n) →
        confirmProduce qlen attempts = .timeoutFailure attempts) ∧
    (qlen 0 = 0 → confirmProduce qlen attempts = .ok 0) := by
  constructor
  · intro hq
    have := confirmLoop_stuck qlen hq attempts 0
    simpa using this
  · intro h0
    cases attempts with
    | zero =>
      show (if 0 < qlen 0 then ConfirmResult.timeoutFailure 0
            else ConfirmResult.ok 0) = ConfirmResult.ok 0
      rw [if_neg (by omega)]
    | succ r =>
      show (if 0 < qlen 0 then confirmLoop qlen (0 + 1) r
            else ConfirmResult.ok 0) = ConfirmResult.ok 0
      rw [if_neg (by omega)]

/-- Witness for C4: a stuck queue of constant length 1 with 3 attempts, and
an initially empty queue. -/
theorem confirmProduce_bounded_witness :
    confirmProduce (fun _ => 1) 3 = .timeoutFailure 3 ∧
    confirmProduce (fun _ => 0) 3 = .ok 0 :=
  ⟨(confirmProduce_bounded (fun _ => 1) 3).1 (fun _ => Nat.one_pos),
    (confirmProduce_bounded (fun _ => 0) 3).2 rfl⟩

/-! ## Claim C7 (corrected) -/

/-- Claim C7 counterexample: resolving the partition for an absent (`None`)
key raises `TypeError` even when the topic's partition count is cached and
positive — `mmh3.hash(None)` rejects `None` — so keyless partition
resolution fails rather than being well-defined. -/
theorem partitioner_null_key_counterexample :
    partitioner (fun _ => none) [("orders", 4)] none "orders" =
      .error .typeError := by
  rfl

/-- Claim C7 amended: for every topic with a cached positive partition
count, resolving the partition for an absent (`None`) key raises the
`TypeError` from `mmh3.hash(None)` instead of returning a partition; for the
empty-string key the resolution is well-defined and deterministic
(independent of the metadata collaborator). -/
theorem keyless_routing (fetch fetch' : String → Option Nat)
    (cache : PyDict Nat) (t : String) (p : Nat)
    (hc : dictGet cache t = some p) (hp : 0 < p) :
    partitioner fetch cache none t = .error .typeError ∧
    partitioner fetch cache (some "") t = partitioner fetch' cache (some "") t ∧
    partitioner fetch cache (some "") t =
      .ok (Int.emod (mmh3Hash "") (p : Int), cache) := by
  have h0 : p ≠ 0 := Nat.pos_iff_ne_zero.mp hp
  refine ⟨?_, ?_, ?_⟩
  · simp [partitioner, getPartitionCount, mmh3HashOpt, hc]
  · simp [partitioner, getPartitionCount, hc]
  · simp [partitioner, getPartitionCount, mmh3HashOpt, hc, h0]

/-- Witness for the amended C7, with a cached count of 4. -/
theorem keyless_routing_witness :
    dictGet [("t", 4)] "t" = some 4 ∧
    partitioner (fun _ => none) [("t", 4)] none "t" = .error .typeError ∧
    partitioner (fun _ => none) [("t", 4)] (some "") "t" =
      .ok (Int.emod (mmh3Hash "") 4, [("t", 4)]) :=
  ⟨rfl,
    (keyless_routing (fun _ => none) (fun _ => some 9) [("t", 4)] "t" 4 rfl
      (by decide)).1,
    (keyless_routing (fun _ => none) (fun _ => some 9) [("t", 4)] "t" 4 rfl
      (by decide)).2.2⟩

/-! ## Claim C3 -/

/-- Claim C3: for every combination of explicit headers and optional
upstream message, the enriched header set contains no entry whose value is
null, and always contains a `guid` key (synthesized when absent after
merging). -/
theorem headers_no_null_and_guid (guid : String) (key : Option String)
    (headers : Option (PyDict (Option String))) (mp : Option PyMessage) :
    (∀ p ∈ (buildHeaders guid key headers mp).1, p.2 ≠ none) ∧
    dictGet (buildHeaders guid key headers mp).1 "guid" ≠ none := by
  cases mp with
  | none => exact finalizedHeaders_ok guid _
  | some m => exact finalizedHeaders_ok guid _

/-- Witness for C3: explicit headers with one null-valued entry and no
upstream message. -/
theorem headers_no_null_and_guid_witness :
    (("a", some "1") ∈
        (buildHeaders "G" none (some [("a", some "1"), ("b", none)]) none).1) ∧
    ((some "1" : Option String) ≠ none) ∧
    dictGet (buildHeaders "G" none (some [("a", some "1"), ("b", none)]) none).1
        "guid" ≠ none :=
  ⟨by decide,
    (headers_no_null_and_guid "G" none (some [("a", some "1"), ("b", none)])
      none).1 ("a", some "1") (by decide),
    (headers_no_null_and_guid "G" none (some [("a", some "1"), ("b", none)])
      none).2⟩

/-! ## Claim C5 (corrected) -/

/-- Claim C5 counterexample: with registered topics `a__changelog_x` and
`b`, neither name ends with the internal-use suffix `__changelog`, so two
topics qualify under the claim's suffix criterion and the claim demands a
configuration-ambiguity failure; the code nevertheless returns `b`, because
it tests substring containment (`'__changelog' not in topic`), not the
suffix. -/
theorem resolveTopic_suffix_counterexample :
    resolveTopicNone ["a__changelog_x", "b"] = .ok "b" ∧
    (["a__changelog_x", "b"].filter (fun t => !endsWithChangelog t)).length = 2 := by
  constructor
  · rfl
  · rfl

/-- Claim C5 amended: `resolve_topic(None)` returns the unique registered
topic that does not *contain* the internal-use marker `__changelog` when
exactly one such topic exists; when zero or more than one registered topics
qualify under that containment criterion, it fails with the
configuration-ambiguity error instead of returning a topic. -/
theorem resolveTopic_unique_non_internal (topicSchemas : List String) :
    (∀ t, topicSchemas.filter (fun s => !containsChangelog s) = [t] →
        resolveTopicNone topicSchemas = .ok t) ∧
    ((topicSchemas.filter (fun s => !containsChangelog s)).length ≠ 1 →
        resolveTopicNone topicSchemas = .error .topicAmbiguity) := by
  constructor
  · intro t h
    simp only [resolveTopicNone]
    rw [h]
  · intro h
    simp only [resolveTopicNone]
    cases hf : topicSchemas.filter (fun s => !containsChangelog s) with
    | nil => rfl
    | cons a l =>
      cases l with
      | nil => exact absurd (by rw [hf]; rfl) h
      | cons b l2 => rfl

/-- Witness for the amended C5: one plain topic and one changelog topic. -/
theorem resolveTopic_unique_non_internal_witness :
    (["orders", "orders__changelog"].filter (fun s => !containsChangelog s)
        = ["orders"]) ∧
    resolveTopicNone ["orders", "orders__changelog"] = .ok "orders" :=
  ⟨by rfl,
    (resolveTopic_unique_non_internal ["orders", "orders__changelog"]).1
      "orders" (by rfl)⟩

/-! ## Claim C6 (corrected) -/

/-- Claim C6 counterexample: with a metrics collaborator whose
produced-counter increment raises, `produce` fails with that error even
though `_format_produce` succeeded and the envelope was already enqueued —
there is no handler around the metrics call, so the failure is propagated to
the caller rather than being swallowed. -/
theorem produce_metrics_counterexample :
    produce (some (fun _ => .error .metricsFailure)) ["orders"]
        (fun _ => none) [("orders", 1)] "G" () (some "k") none none none none =
      .error .metricsFailure ∧
    formatProduce ["orders"] (fun _ => none) [("orders", 1)] "G"
        () (some "k") none none none none =
      .ok ({ topic := "orders", key := some "k", value := (),
             headers := [("guid", some "G")], partition := 0 }, [("orders", 1)]) := by
  constructor
  · rfl
  · rfl

/-- Claim C6 amended: whenever the envelope is successfully formatted and
enqueued and the configured metrics collaborator's increment raises, the
error propagates out of `produce` to the caller (metrics recording is not
best-effort in this code path). -/
theorem metrics_failure_propagates {V : Type}
    (inc : String → Except PyErr Unit) (topicSchemas : List String)
    (fetch : String → Option Nat) (cache : PyDict Nat) (guid : String)
    (value : V) (key : Option String) (topic : Option String)
    (headers : Option (PyDict (Option String))) (partition : Option Int)
    (mp : Option PyMessage) (env : Envelope V) (cache' : PyDict Nat) (e : PyErr)
    (hfmt : formatProduce topicSchemas fetch cache guid value key topic headers
        partition mp = .ok (env, cache'))
    (hinc : inc env.topic = .error e) :
    produce (some inc) topicSchemas fetch cache guid value key topic headers
        partition mp = .error e := by
  unfold produce
  rw [hfmt]
  simp [hinc]

/-- Witness for the amended C6, with an explicit topic and partition. -/
theorem metrics_failure_propagates_witness :
    produce (some (fun _ => (.error .metricsFailure : Except PyErr Unit)))
        ["t2"] (fun _ => none) [("t2", 2)] "G" (0 : Nat) none (some "t2") none
        (some 1) none = .error .metricsFailure :=
  metrics_failure_propagates (fun _ => (.error .metricsFailure : Except PyErr Unit))
    ["t2"] (fun _ => none) [("t2", 2)] "G" (0 : Nat) none (some "t2") none
    (some 1) none
    { topic := "t2", key := none, value := 0,
      headers := [("guid", some "G")], partition := 1 }
    [("t2", 2)] .metricsFailure (by rfl) (by rfl)

/-! ## Claim C8 -/

/-- Claim C8: when an upstream message is supplied and no key was explicitly
given, the outgoing key equals the upstream message's key, and every
non-null upstream header that the explicit headers do not override is
carried into the outgoing header set, which also contains a `guid`. -/
theorem upstream_key_and_headers (guid : String)
    (headers : Option (PyDict (Option String))) (m : PyMessage) (k v : String)
    (hup : dictGet (parse_headers m.rawHeaders) k = some (some v))
    (hex : ∀ p ∈ headers.getD [], p.1 ≠ k) :
    (buildHeaders guid none headers (some m)).2 = m.key ∧
    dictGet (buildHeaders guid none headers (some m)).1 k = some (some v) ∧
    dictGet (buildHeaders guid none headers (some m)).1 "guid" ≠ none := by
  refine ⟨rfl, ?_, (finalizedHeaders_ok guid _).2⟩
  have harg : ∀ p ∈ (if pyTruthyDict headers then headers.getD [] else []),
      p.1 ≠ k := by
    split
    · exact hex
    · intro p hp
      simp at hp
  have hmerged : dictGet (dictUpdate (parse_headers m.rawHeaders)
      (if pyTruthyDict headers then headers.getD [] else [])) k
      = some (some v) := by
    rw [dictGet_dictUpdate_not_mem _ k harg]
    exact hup
  exact dictGet_finalized_of_get guid _ hmerged

/-- Witness for C8: upstream message with key `"K"` and header
`trace: 42`, no explicit key or headers. -/
theorem upstream_key_and_headers_witness :
    dictGet (parse_headers [("trace", some "42")]) "trace" = some (some "42") ∧
    (buildHeaders "G" none none (some ⟨some "K", [("trace", some "42")]⟩)).2
      = some "K" ∧
    dictGet (buildHeaders "G" none none
        (some ⟨some "K", [("trace", some "42")]⟩)).1 "trace" = some (some "42") ∧
    dictGet (buildHeaders "G" none none
        (some ⟨some "K", [("trace", some "42")]⟩)).1 "guid" ≠ none :=
  ⟨rfl,
    (upstream_key_and_headers "G" none ⟨some "K", [("trace", some "42")]⟩
      "trace" "42" rfl (by simp)).1,
    (upstream_key_and_headers "G" none ⟨some "K", [("trace", some "42")]⟩
      "trace" "42" rfl (by simp)).2.1,
    (upstream_key_and_headers "G" none ⟨some "K", [("trace", some "42")]⟩
      "trace" "42" rfl (by simp)).2.2⟩

/-! ## Claim C9 -/

/-- Claim C9: for every header key present both in the caller's explicit
headers (with a non-null value, the explicit headers being a well-formed
dict) and in the headers seeded from the upstream message, the final header
set carries the explicit caller-supplied value. -/
theorem explicit_headers_win (guid : String) (key : Option String)
    (e : PyDict (Option String)) (m : PyMessage) (k v : String)
    (hnd : (e.map Prod.fst).Nodup)
    (he : dictGet e k = some (some v))
    (_hseed : dictGet (parse_headers m.rawHeaders) k ≠ none) :
    dictGet (buildHeaders guid key (some e) (some m)).1 k = some (some v) := by
  have hne : e ≠ [] := by
    intro hnil
    rw [hnil] at he
    simp [dictGet] at he
  obtain ⟨a, l, rfl⟩ := List.exists_cons_of_ne_nil hne
  have hmerged : dictGet (dictUpdate (parse_headers m.rawHeaders) (a :: l)) k
      = some (some v) := dictGet_dictUpdate_mem (a :: l) k (some v) hnd he _
  exact dictGet_finalized_of_get guid _ hmerged

/-- Witness for C9: explicit `trace: 99` overriding upstream `trace: 42`. -/
theorem explicit_headers_win_witness :
    (([("trace", some "99")] : PyDict (Option String)).map Prod.fst).Nodup ∧
    dictGet [("trace", some "99")] "trace" = some (some "99") ∧
    dictGet (parse_headers [("trace", some "42")]) "trace" ≠ none ∧
    dictGet (buildHeaders "G" none (some [("trace", some "99")])
        (some ⟨some "K", [("trace", some "42")]⟩)).1 "trace" = some (some "99") :=
  ⟨by decide, rfl, by decide,
    explicit_headers_win "G" none [("trace", some "99")]
      ⟨some "K", [("trace", some "42")]⟩ "trace" "99" (by decide) rfl (by decide)⟩

/-! ## Claim C10 -/

/-- Claim C10: the absence check for the caller-supplied partition is
truthiness-based, so a produce call with explicit partition `0` behaves
exactly like one with no partition — the envelope's partition is recomputed
from the key by `_partitioner` — while any positive explicit partition is
used unchanged. -/
theorem partition_zero_truthiness {V : Type} (topicSchemas : List String)
    (fetch : String → Option Nat) (cache : PyDict Nat) (guid : String)
    (value : V) (k t : String) (headers : Option (PyDict (Option String)))
    (p : Nat) (hc : dictGet cache t = some p) (hp : 0 < p) (ht : t ≠ "")
    (hts : topicSchemas.contains t = true) :
    formatProduce topicSchemas fetch cache guid value (some k) (some t) headers
        (some 0) none =
      formatProduce topicSchemas fetch cache guid value (some k) (some t)
        headers none none ∧
    formatProduce topicSchemas fetch cache guid value (some k) (some t) headers
        (some 0) none =
      .ok ({ topic := t, key := some k, value := value,
             headers := (buildHeaders guid (some k) headers none).1,
             partition := Int.emod (mmh3Hash k) (p : Int) }, cache) ∧
    (∀ q : Int, 0 < q →
      formatProduce topicSchemas fetch cache guid value (some k) (some t)
          headers (some q) none =
        .ok ({ topic := t, key := some k, value := value,
               headers := (buildHeaders guid (some k) headers none).1,
               partition := q }, cache)) := by
  have h0 : p ≠ 0 := Nat.pos_iff_ne_zero.mp hp
  have htm : t ∈ topicSchemas := by simpa using hts
  refine ⟨?_, ?_, ?_⟩
  · rfl
  · simp [formatProduce, pyTruthyStr, pyTruthyInt, ht, htm, partitioner,
      getPartitionCount, mmh3HashOpt, hc, h0, buildHeaders]
  · intro q hq
    have hqz : ¬ q = 0 := by omega
    simp [formatProduce, pyTruthyStr, pyTruthyInt, ht, htm, hqz, buildHeaders]

/-- Witness for C10: cached count 3 for topic `orders`, key `"abc"`,
explicit partitions `0` and `2`. -/
theorem partition_zero_truthiness_witness :
    formatProduce ["orders"] (fun _ => none) [("orders", 3)] "G" ()
        (some "abc") (some "orders") none (some 0) none =
      formatProduce ["orders"] (fun _ => none) [("orders", 3)] "G" ()
        (some "abc") (some "orders") none none none ∧
    formatProduce ["orders"] (fun _ => none) [("orders", 3)] "G" ()
        (some "abc") (some "orders") none (some 2) none =
      .ok ({ topic := "orders", key := some "abc", value := (),
             headers := [("guid", some "G")], partition := 2 }, [("orders", 3)]) :=
  ⟨(partition_zero_truthiness ["orders"] (fun _ => none) [("orders", 3)] "G"
      () "abc" "orders" none 3 rfl (by decide) (by decide) (by decide)).1,
    (partition_zero_truthiness ["orders"] (fun _ => none) [("orders", 3)] "G"
      () "abc" "orders" none 3 rfl (by decide) (by decide) (by decide)).2.2
      2 (by decide)⟩

end Fluvii
